import Mathlib

/-!
Shallow embedding of `src/main.js` of tle.js (class `TLEJS`): TLE parsing,
checksum validation, field accessors, epoch-time resolution, the antemeridian
crossing search with its cache, and ground-track assembly.

Modelling conventions:
* JavaScript numbers are modelled as `ℚ` (or `Int` where the source only ever
  holds integers); `NaN` is modelled as `none` in an `Option`.
* Thrown exceptions are modelled with `Except String`.
* The external propagator (satellite.js, reached through `getLatLonArr`) is an
  abstract total sampling function `List String → ℚ → ℚ × ℚ` giving the
  sub-satellite (lat, lng) for a TLE line array at a time, as the claims direct.
* The engine's memoization cache is explicit state, threaded through the
  functions that read or write it.  Caches that only memoize a pure
  computation (`parseTLE`, `isValidTLE`, the per-field getters) are omitted:
  the model gives single-call (fresh instance) semantics for those.
-/

/-- Character-level substring: models JS `s.substr(start, length)` for
non-negative arguments (the only ones the source uses). -/
def jsSubstr (s : String) (start len : ℕ) : String :=
  String.mk ((s.toList.drop start).take len)

/-- Models the 30-character cache-key truncation `str.substr(0, 30)` used
throughout the source. -/
def first30 (s : String) : String :=
  jsSubstr s 0 30

/-- Numeric value of a decimal digit character, `none` for non-digits. -/
def charDigit (c : Char) : Option ℕ :=
  if '0' ≤ c ∧ c ≤ '9' then some (c.toNat - 48) else none

/-- Value of a list of decimal digit characters (most significant first). -/
def natOfDigits (cs : List Char) : ℕ :=
  cs.foldl (fun a c => 10 * a + (c.toNat - 48)) 0

/-- Value of the longest digit prefix of a character list, `none` when it is
empty. -/
def digitsPrefixVal (cs : List Char) : Option ℕ :=
  let ds := cs.takeWhile Char.isDigit
  if ds = [] then none else some (natOfDigits ds)

/-- Models JS `parseInt(str, 10)` on a character list: skip leading spaces,
optional sign, then the longest digit prefix; `NaN` (here `none`) when no
digit is found. -/
def jsParseIntList (cs : List Char) : Option Int :=
  match cs.dropWhile (fun c => c = ' ') with
  | [] => none
  | c :: rest =>
    if c = '-' then (digitsPrefixVal rest).map (fun n => -(n : Int))
    else if c = '+' then (digitsPrefixVal rest).map (fun n => (n : Int))
    else (digitsPrefixVal (c :: rest)).map (fun n => (n : Int))

/-- Models JS `parseInt(str, 10)`. -/
def jsParseInt (s : String) : Option Int :=
  jsParseIntList s.toList

/-- Value of a fraction digit list `d₁d₂…` read as `0.d₁d₂…`. -/
def fracOfDigits (cs : List Char) : ℚ :=
  (natOfDigits cs : ℚ) / (10 : ℚ) ^ cs.length

/-- Models JS `parseFloat(str)` on the shapes that occur in TLE fields:
leading spaces, optional sign, integer digits, optional `.` with fraction
digits; `NaN` (here `none`) when no digit is found.  (`Infinity` literals and
exponent suffixes are outside the modelled fragment.) -/
def jsParseFloatList (cs : List Char) : Option ℚ :=
  let core : List Char → Option ℚ := fun cs =>
    let intPart := cs.takeWhile Char.isDigit
    let rest := cs.dropWhile Char.isDigit
    match rest with
    | '.' :: rest2 =>
      let fracPart := rest2.takeWhile Char.isDigit
      if intPart = [] ∧ fracPart = [] then none
      else some ((natOfDigits intPart : ℚ) + fracOfDigits fracPart)
    | _ => if intPart = [] then none else some (natOfDigits intPart : ℚ)
  match cs.dropWhile (fun c => c = ' ') with
  | [] => none
  | c :: rest =>
    if c = '-' then (core rest).map (fun q => -q)
    else if c = '+' then core rest
    else core (c :: rest)

/-- Models JS `parseFloat(str)`. -/
def jsParseFloat (s : String) : Option ℚ :=
  jsParseFloatList s.toList

/-- Models JS `ToNumber` coercion of a string (as triggered by `Math.abs(s)`
or `s * t`): whitespace-only strings give 0, otherwise an optionally signed
decimal literal must span the whole string; `NaN` is `none`.  Only the shapes
reachable from TLE field substrings are modelled. -/
def jsToNumber (s : String) : Option ℚ :=
  let cs := s.toList.dropWhile (fun c => c = ' ')
  let cs := (cs.reverse.dropWhile (fun c => c = ' ')).reverse
  let core : List Char → Option ℚ := fun cs =>
    let intPart := cs.takeWhile Char.isDigit
    let rest := cs.dropWhile Char.isDigit
    match rest with
    | ['.'] => if intPart = [] then none else some (natOfDigits intPart : ℚ)
    | '.' :: rest2 =>
      let fracPart := rest2.takeWhile Char.isDigit
      if fracPart = [] ∨ rest2.dropWhile Char.isDigit ≠ [] then none
      else some ((natOfDigits intPart : ℚ) + fracOfDigits fracPart)
    | [] => if intPart = [] then none else some (natOfDigits intPart : ℚ)
    | _ => none
  match cs with
  | [] => some 0
  | c :: rest =>
    if c = '-' then (core rest).map (fun q => -q)
    else if c = '+' then core rest
    else core (c :: rest)

/-- Models JS `ToNumber` of a single character string, as triggered by
`'x' % 10`: a digit gives its value, a space gives 0, anything else `NaN`. -/
def jsToNumberChar (c : Char) : Option Int :=
  if c = ' ' then some 0 else (charDigit c).map (fun n => (n : Int))

/-- Truncation toward zero, modelling JS `parseInt(numericValue, 10)` applied
to a (finite, non-exponential-notation) number. -/
def ratTrunc (q : ℚ) : Int :=
  q.num / (q.den : Int)

/-- Models JS `(q).toFixed()`: round to the nearest integer, halves toward
positive infinity. -/
def jsToFixed0 (q : ℚ) : Int :=
  ⌊q + 1 / 2⌋

/-- Models the JS idiom `x || dflt` on an integer-valued argument where
`none` stands for `undefined`/`NaN` (both falsy) and `0` is falsy. -/
def jsOrInt (x : Option Int) (dflt : Int) : Int :=
  match x with
  | none => dflt
  | some 0 => dflt
  | some v => v

/-- Modelled from the spec: `isPositive` of `./tle-utils` (a source file not
in the repository snapshot); the spec speaks only of the longitudes' signs,
so a longitude is taken as positive iff it is ≥ 0.  (The callers rule out 0
before consulting the sign, so the boundary choice is unobservable.) -/
def isPositive (q : ℚ) : Bool :=
  decide (0 ≤ q)

/-- Embeds `TLEJS.crossesAntemeridian(longitude1, longitude2)`.  `none`
models an `undefined` argument (`lastLatLon[1]` before the first sample);
`undefined` and `0` are both falsy, so either argument being `none` or `0`
short-circuits to `false`.  When the signs differ, only
`Math.abs(longitude1) > 100` is consulted. -/
def crossesAntemeridian (l1 l2 : Option ℚ) : Bool :=
  match l1, l2 with
  | some q1, some q2 =>
    if q1 = 0 ∨ q2 = 0 then false
    else if isPositive q1 = isPositive q2 then false
    else decide (100 < |q1|)
  | _, _ => false

/-- Embeds `TLEJS.tleLineChecksum(tleLineStr)`.  The final character is
removed, an empty remainder throws, and the remaining characters are summed
by `Array.prototype.reduce` *without an initial accumulator*: the first
character seeds the accumulator, and each step is
`parseInt(sum) + parseInt(val)` for digit `val`, `parseInt(sum) + 1` for
`'-'`, `parseInt(sum)` otherwise.  `Except.ok none` models a `NaN` result
(the seed character was not a digit); on a single remaining character the
reduce returns that character itself and `% 10` coerces it with `ToNumber`. -/
def tleLineChecksum (tleLineStr : String) : Except String (Option Int) :=
  let charArr := tleLineStr.toList.dropLast
  match charArr with
  | [] => .error "Character array empty!"
  | [c0] => .ok ((jsToNumberChar c0).map (fun v => v % 10))
  | c0 :: rest =>
    let step : Option Int → Char → Option Int := fun acc c =>
      match charDigit c with
      | some v => acc.map (fun s => s + v)
      | none => if c = '-' then acc.map (fun s => s + 1) else acc
    let folded := rest.foldl step (jsParseIntList [c0])
    .ok (folded.map (fun v => v % 10))

/-- Canonical parsed TLE record: `{ name, arr }` in the source. -/
structure TLERec where
  name : String
  arr : List String
deriving Repr, DecidableEq

/-- Inputs accepted by `parseTLE`: a newline-joined string, an array of
lines, an already-parsed record (recognized by its `arr` attribute), or any
other value (which throws). -/
inductive TLEInput where
  | str (s : String)
  | arr (lines : List String)
  | record (r : TLERec)
  | other
deriving Repr, DecidableEq

/-- Embeds `TLEJS.parseTLE(inputTLE)`: record passthrough; strings split on
newlines; with more than two lines the first is the satellite name and is
dropped, otherwise the name is `"Unknown"`; surviving lines are trimmed.
Non-string/array/record input throws `'TLE input is invalid'`. -/
def parseTLE (inputTLE : TLEInput) : Except String TLERec :=
  match inputTLE with
  | .record r => .ok r
  | .str s => .ok (parseTLEArr (s.splitOn "\n"))
  | .arr ls => .ok (parseTLEArr ls)
  | .other => .error "TLE input is invalid"
where
  /-- Name extraction and trimming applied to the line array. -/
  parseTLEArr (ls : List String) : TLERec :=
    if 2 < ls.length then
      { name := ls.headD "", arr := (ls.drop 1).map String.trim }
    else
      { name := "Unknown", arr := ls.map String.trim }

/-- Embeds the generated field getters (`createTLEValGetter`) up to the value
decode: parse the input, select the physical line (index 0 or 1), and slice
`substr(start, length)`.  A missing line is `undefined` and `.substr` on it
throws a `TypeError`. -/
def tleField (lineIdx start len : ℕ) (tle : TLEInput) : Except String String := do
  let p ← parseTLE tle
  match p.arr[lineIdx]? with
  | none => .error "TypeError: line is undefined"
  | some line => pure (jsSubstr line start len)

/-- Getter `getLineNumber1` (line 1, column 0, length 1, INT). -/
def getLineNumber1 (tle : TLEInput) : Except String (Option Int) :=
  (tleField 0 0 1 tle).map jsParseInt

/-- Getter `getLineNumber2` (line 2, column 0, length 1, INT). -/
def getLineNumber2 (tle : TLEInput) : Except String (Option Int) :=
  (tleField 1 0 1 tle).map jsParseInt

/-- Getter `getChecksum1` (line 1, column 68, length 1, INT). -/
def getChecksum1 (tle : TLEInput) : Except String (Option Int) :=
  (tleField 0 68 1 tle).map jsParseInt

/-- Getter `getChecksum2` (line 2, column 68, length 1, INT). -/
def getChecksum2 (tle : TLEInput) : Except String (Option Int) :=
  (tleField 1 68 1 tle).map jsParseInt

/-- Getter `getEpochYear` (line 1, column 18, length 2, INT): the raw
two-digit epoch year. -/
def getEpochYear (tle : TLEInput) : Except String (Option Int) :=
  (tleField 0 18 2 tle).map jsParseInt

/-- Getter `getEpochDay` (line 1, column 20, length 12, FLOAT). -/
def getEpochDay (tle : TLEInput) : Except String (Option ℚ) :=
  (tleField 0 20 12 tle).map jsParseFloat

/-- Getter `getMeanMotion` (line 2, column 52, length 11, FLOAT). -/
def getMeanMotion (tle : TLEInput) : Except String (Option ℚ) :=
  (tleField 1 52 11 tle).map jsParseFloat

/-- JS strict equality `===` between two possibly-`NaN` numbers: `NaN`
compares unequal to everything, including itself. -/
def jsStrictEq (a b : Option Int) : Bool :=
  match a, b with
  | some x, some y => decide (x = y)
  | _, _ => false

/-- Line-level check performed by `isValidTLE` for one line: the line-number
column must parse to the expected number and the checksum column must be
strictly equal to the computed checksum.  The checksum computation can throw
(empty body). -/
def isValidTLELine (p : TLERec) (idx : ℕ) (line : String) : Except String Bool := do
  let parsedLineNumber ←
    if idx = 0 then getLineNumber1 (.record p) else getLineNumber2 (.record p)
  let lineNumberIsValid := jsStrictEq parsedLineNumber (some ((idx : Int) + 1))
  let calculated ← tleLineChecksum line
  let parsedChecksum ←
    if idx = 0 then getChecksum1 (.record p) else getChecksum2 (.record p)
  let checksumIsValid :=
    match parsedChecksum, calculated with
    | some x, some y => decide (x = y)
    | _, _ => false
  pure (lineNumberIsValid && checksumIsValid)

/-- Embeds `TLEJS.isValidTLE(tle)` (fresh-cache semantics): parse, return
`false` when the record does not have exactly two lines, else check line
numbers and checksums per line, where the second line is only examined if the
first passed (the `forEach` no-ops once invalid).  Checksum computation on a
line whose body is empty after removing the checksum character throws, which
propagates. -/
def isValidTLE (tle : TLEInput) : Except String Bool := do
  let p ← parseTLE tle
  match p.arr with
  | [l1, l2] => do
    let ok1 ← isValidTLELine p 0 l1
    if ok1 then isValidTLELine p 1 l2 else pure false
  | _ => pure false

/-- Days between a proleptic-Gregorian civil date and 1970-01-01 (Howard
Hinnant's `days_from_civil`, whose divisions truncate toward zero exactly as
Lean's `Int` division does). -/
def daysFromCivil (y m d : Int) : Int :=
  let y2 := if m ≤ 2 then y - 1 else y
  let era := (if 0 ≤ y2 then y2 else y2 - 399) / 400
  let yoe := y2 - era * 400
  let doy := (153 * (m + (if 2 < m then -3 else 9)) + 2) / 5 + d - 1
  let doe := yoe * 365 + yoe / 4 - yoe / 100 + doy
  era * 146097 + doe - 719468

/-- Models `new Date('1/1/<year> 0:0:0 Z').getTime()` under the legacy date
parser shared by the mainstream JS engines: two-digit years 0–49 are read as
2000–2049, years 50–99 as 1950–1999, years ≥ 100 literally; negative years
give an invalid date (`NaN`, here `none`). -/
def jsDateJan1MS (year : Int) : Option Int :=
  if 0 ≤ year ∧ year ≤ 49 then some (86400000 * daysFromCivil (2000 + year) 1 1)
  else if 50 ≤ year ∧ year ≤ 99 then some (86400000 * daysFromCivil (1900 + year) 1 1)
  else if 100 ≤ year then some (86400000 * daysFromCivil year 1 1)
  else none

/-- Embeds `TLEJS.dayOfYearToTimeStamp(dayOfYear, year)`.  `year || current`
makes a missing, `NaN`, or zero year fall back to the current calendar year
(`currentFullYear`, the explicit stand-in for `new Date().getFullYear()`);
then `Math.floor(yearStartMS + (dayOfYear - 1) * MS_IN_A_DAY)`, with `NaN`
anywhere giving `NaN` (`none`). -/
def dayOfYearToTimeStamp (dayOfYear : Option ℚ) (year : Option Int)
    (currentFullYear : Int) : Option Int :=
  match jsDateJan1MS (jsOrInt year currentFullYear), dayOfYear with
  | some yearStartMS, some d => some ⌊(yearStartMS : ℚ) + (d - 1) * 86400000⌋
  | _, _ => none

/-- Embeds `TLEJS.getEpochTimestamp(tle)`: epoch day, then epoch year, then
`dayOfYearToTimeStamp`. -/
def getEpochTimestamp (tle : TLEInput) (currentFullYear : Int) :
    Except String (Option Int) := do
  let epochDay ← getEpochDay tle
  let epochYear ← getEpochYear tle
  pure (dayOfYearToTimeStamp epochDay epochYear currentFullYear)

/-- Embeds `TLEJS.getTLEEpochTimestamp(tle)`: epoch year, then epoch day,
then `dayOfYearToTimeStamp`. -/
def getTLEEpochTimestamp (tle : TLEInput) (currentFullYear : Int) :
    Except String (Option Int) := do
  let epochYear ← getEpochYear tle
  let epochDayOfYear ← getEpochDay tle
  pure (dayOfYearToTimeStamp epochDayOfYear epochYear currentFullYear)

/-- Epoch-timestamp resolution exactly as claim C4 words it: the two-digit
year maps to the 1900s for 57–99 and to the 2000s for 00–56, and the result
is `floor(startOfYear(Y) + (epochDay - 1) * 86400000)` milliseconds.  Stated
from the claim, for comparison against `getEpochTimestamp`. -/
def claimC4EpochTimestamp (twoDigitYear : Int) (epochDay : ℚ) : Int :=
  let fourDigit := if 57 ≤ twoDigitYear then 1900 + twoDigitYear else 2000 + twoDigitYear
  ⌊(86400000 * daysFromCivil fourDigit 1 1 : ℚ) + (epochDay - 1) * 86400000⌋

/-- Embeds `TLEJS.getDigitCount(num)` = `Math.abs(num).toString().length` for
the integral values that reach it from TLE digit-string fields.  (For a
non-integral argument JS would also count the decimal point and fraction
digits; no modelled call site produces one.) -/
def getDigitCount (q : ℚ) : ℕ :=
  (Nat.repr q.num.natAbs).length

/-- Embeds `TLEJS.toLeadingDecimal(num)` on a string argument: `num` is
coerced by `Math.abs`/`*` to a number `q`, and `q * '0.' + '0'.repeat(d-1) +
'1'` multiplies it by `10^(-d)` where `d = getDigitCount(q)`; `parseFloat` of
the numeric product is the identity.  A `NaN` coercion gives `NaN`
(`none`). -/
def toLeadingDecimal (s : String) : Option ℚ :=
  (jsToNumber s).map (fun q => q * (10 : ℚ) ^ (-(getDigitCount q : ℤ)))

/-- Floor of the base-10 logarithm of a positive rational (the unique `e`
with `10^e ≤ x < 10^(e+1)`), computed from decimal digit counts so that it
evaluates by structural reduction. -/
def ratLog10Floor (x : ℚ) : Int :=
  if 1 ≤ x then ((Nat.repr (Int.toNat ⌊x⌋)).length : Int) - 1
  else
    let a := x.num.natAbs
    let b := x.den
    let j0 := (Nat.repr b).length - (Nat.repr a).length
    if b ≤ a * 10 ^ j0 then -(j0 : Int) else -((j0 : Int) + 1)

/-- Positive-argument core of JS `Number.prototype.toPrecision(5)`: round to
5 significant decimal digits, halves rounding up (ES2023 21.1.3.5 picks the
larger candidate). -/
def jsToPrecision5Pos (x : ℚ) : ℚ :=
  let e := ratLog10Floor x
  let scale := (10 : ℚ) ^ (e - 4)
  (⌊x / scale + 1 / 2⌋ : ℚ) * scale

/-- Models JS `x.toPrecision(5)` as the rational value the produced string
denotes: zero stays zero, negative arguments round via their absolute
value. -/
def jsToPrecision5 (q : ℚ) : ℚ :=
  if q = 0 then 0
  else if q < 0 then -(jsToPrecision5Pos (-q))
  else jsToPrecision5Pos q

/-- Embeds `TLEJS.decimalAssumedEToFloat(str)`: all but the last two
characters form the assumed-leading-decimal magnitude, the last two parse as
the exponent, and the result is `toPrecision(5)` of
`toLeadingDecimal(body) * 10^exponent`.  `NaN` in either part gives `NaN`
(`none`). -/
def decimalAssumedEToFloat (str : String) : Option ℚ :=
  let numWithAssumedLeadingDecimal := jsSubstr str 0 (str.length - 2)
  let num := toLeadingDecimal numWithAssumedLeadingDecimal
  let leadingDecimalPoints := jsParseInt (jsSubstr str (str.length - 2) 2)
  match num, leadingDecimalPoints with
  | some n, some e => some (jsToPrecision5 (n * (10 : ℚ) ^ e))
  | _, _ => none

/-- The DECIMAL_ASSUMED_E decoding rule exactly as claim C8 words it: the
digit string (parsed value `n`) scaled by `10^-(numDigits-1)`, then by
`10^exponent`, reported to 5 significant figures.  Stated from the claim,
for comparison against `decimalAssumedEToFloat`. -/
def claimC8Decode (n : ℕ) (exponent : Int) : ℚ :=
  jsToPrecision5 ((n : ℚ) * (10 : ℚ) ^ (-((getDigitCount (n : ℚ) : ℤ) - 1)) * (10 : ℚ) ^ exponent)

/-- Embeds `TLEJS.getAverageOrbitLengthMins(tle)`: the body starts with
`tle.join('')`, which only exists on arrays — string or record input throws a
`TypeError` — then returns `(24 * 60) / meanMotion`.  A zero mean motion
would give `Infinity`, which `ℚ` cannot carry; it is mapped to `none`
(no modelled claim touches it). -/
def getAverageOrbitLengthMins (tle : TLEInput) : Except String (Option ℚ) := do
  match tle with
  | .arr _ => pure ()
  | _ => .error "TypeError: tle.join is not a function"
  let meanMotion ← getMeanMotion tle
  pure (meanMotion.bind (fun m => if m = 0 then none else some ((24 * 60) / m)))

/-- Embeds `TLEJS.getOrbitTimeMS(tle)` = `parseInt(MS_IN_A_DAY /
meanMotion)`: truncated toward zero; `NaN` mean motion gives `NaN`, and a
zero mean motion gives `Infinity` whose `parseInt` is also `NaN` (both
`none`). -/
def getOrbitTimeMS (tle : TLEInput) : Except String (Option Int) := do
  let meanMotion ← getMeanMotion tle
  pure (meanMotion.bind (fun m => if m = 0 then none else some (ratTrunc (86400000 / m))))

/-- Value stored in `cache.antemeridianCrossings` for one TLE fingerprint:
the sentinel `-1` (no discoverable crossing) or the growing list of found
crossing timestamps. -/
inductive AMEntry where
  | sentinel
  | times (ts : List Int)
deriving Repr, DecidableEq

/-- String-keyed association-list lookup modelling reads of the engine's
cache object (`this.cache[...]`). -/
def lookupCache {α : Type} (l : List (String × α)) (k : String) : Option α :=
  (l.find? (fun e => e.1 == k)).map (fun e => e.2)

/-- Cache write `this.cache[key] = v` (later writes shadow earlier ones). -/
def setCache {α : Type} (l : List (String × α)) (k : String) (v : α) :
    List (String × α) :=
  (k, v) :: l

/-- The mutable cache slices touched by the modelled functions, keyed as in
the source (the string keys embed the operation name, so the slices are
disjoint key spaces of the single JS cache object): `am` is
`cache.antemeridianCrossings`, `gt` the `getGroundTrackLatLng-…` entries,
`ot` the `getOrbitTrack-…` entries. -/
structure CacheState where
  am : List (String × AMEntry)
  gt : List (String × List (List (ℚ × ℚ)))
  ot : List (String × List (ℚ × ℚ))
deriving Repr, DecidableEq

/-- State of the antemeridian search loop of
`getLastAntemeridianCrossingTimeMS`: current step size, current sample time,
the last non-crossing longitude (`lastLatLon[1]`, `none` before the first
backward step), and the `tries` counter. -/
structure SearchSt where
  step : ℚ
  curTimeMS : ℚ
  lastLng : Option ℚ
  tries : ℕ
deriving Repr, DecidableEq

/-- One iteration of the search loop body: sample the longitude at the
current time; on a crossing step forward by the old step and shrink the step
(cap 20000, else halve), otherwise step backward and remember the longitude;
either way increment `tries`. -/
def searchStep (lng : ℚ → ℚ) (st : SearchSt) : SearchSt :=
  let curLng := lng st.curTimeMS
  if crossesAntemeridian st.lastLng (some curLng) then
    { st with curTimeMS := st.curTimeMS + st.step,
              step := if 20000 < st.step then 20000 else st.step / 2,
              tries := st.tries + 1 }
  else
    { st with curTimeMS := st.curTimeMS - st.step,
              lastLng := some curLng,
              tries := st.tries + 1 }

/-- Exit condition `isDone = step < 500 || tries >= maxTries`, read on the
state after a body iteration: the source checks `tries` before incrementing
it, which is `tries ≥ 1001` on the post-increment counter. -/
def searchDone (st : SearchSt) : Bool :=
  decide (st.step < 500) || decide (1001 ≤ st.tries)

/-- The `while (!isDone)` search loop, driven by explicit fuel; the source's
loop bound (`maxTries`) makes any fuel of at least 1001 equivalent
(`searchLoopFuel_stable`). -/
def searchLoopFuel (lng : ℚ → ℚ) : ℕ → SearchSt → SearchSt
  | 0, st => st
  | fuel + 1, st =>
    let st' := searchStep lng st
    if searchDone st' then st' else searchLoopFuel lng fuel st'

/-- Initial search state: 10-minute step, anchored at the reference time. -/
def initSearch (timeMS : Int) : SearchSt :=
  { step := 1000 * 60 * 10, curTimeMS := (timeMS : ℚ), lastLng := none, tries := 0 }

/-- Embeds `TLEJS.getCachedLastAntemeridianCrossingTimeMS(tle, timeMS)`
given the already-computed orbit length: `false` (here `none`) without a
cache entry; the sentinel short-circuits to `-1`; otherwise the first cached
time within `(timeMS - orbitLengthMS, timeMS)` is returned, with the final
`|| false` turning an absent (or zero) result into `false`.  `none` for
`timeMS` or `orbitLengthMS` models `NaN`, whose comparisons are all false.
(The `typeof val === 'object'` arm of the filter is dead code: the stored
values are always numbers.) -/
def getCachedLastAntemeridianCrossingTimeMS (orbitLengthMS : Option ℚ)
    (am : List (String × AMEntry)) (key : String) (timeMS : Option Int) :
    Option Int :=
  match lookupCache am key with
  | none => none
  | some .sentinel => some (-1)
  | some (.times ts) =>
    let isWithinOrbit : Int → Bool := fun v =>
      match timeMS, orbitLengthMS with
      | some t, some len => decide (0 < t - v) && decide ((t - v : ℚ) < len)
      | _, _ => false
    match ts.filter isWithinOrbit with
    | [] => none
    | v :: _ => if v = 0 then none else some v

/-- Embeds `TLEJS.getLastAntemeridianCrossingTimeMS(tle, timeMS)`.  The
sub-satellite sampler (`getLatLonArr`, i.e. the external propagator) is the
abstract total function `sample`; `nowMS` stands in for `Date.now()`.  The
cached-value check runs first (after the orbit length needed by it); a falsy
cached value (absent) falls through to the search.  Non-convergence
(`tries - 1 === maxTries`) stores the sentinel and returns `-1`; otherwise
the found time is truncated by `parseInt` and pushed onto the entry list. -/
def getLastAntemeridianCrossingTimeMS (sample : List String → ℚ → ℚ × ℚ)
    (tle : TLEInput) (timeMS : Option Int) (nowMS : Int) (st : CacheState) :
    Except String (Int × CacheState) := do
  let parsedTLE ← parseTLE tle
  let avg ← getAverageOrbitLengthMins (.arr parsedTLE.arr)
  let orbitLengthMS := avg.map (fun x => x * 60 * 1000)
  let tleStr := first30 (String.join parsedTLE.arr)
  match getCachedLastAntemeridianCrossingTimeMS orbitLengthMS st.am tleStr timeMS with
  | some v => pure (v, st)
  | none =>
    let time := jsOrInt timeMS nowMS
    let final := searchLoopFuel (fun q => (sample parsedTLE.arr q).2) 1001 (initSearch time)
    let couldNotFindCrossing := final.tries - 1 = 1000
    let crossingTime : Int := if couldNotFindCrossing then -1 else ratTrunc final.curTimeMS
    let am1 :=
      match lookupCache st.am tleStr with
      | none => setCache st.am tleStr (.times [])
      | some _ => st.am
    let prev :=
      match lookupCache am1 tleStr with
      | some (.times ts) => ts
      | _ => []
    let am2 :=
      if couldNotFindCrossing then setCache am1 tleStr .sentinel
      else setCache am1 tleStr (.times (prev ++ [crossingTime]))
    pure (crossingTime, { st with am := am2 })

/-- State of the orbit-track walker of `getOrbitTrack`. -/
structure OTState where
  latLons : List (ℚ × ℚ)
  curTimeMS : ℚ
  lastLng : Option ℚ
  stepMS : ℚ
deriving Repr, DecidableEq

/-- Time-budget test `maxTimeMS && (curTimeMS - startTimeMS > maxTimeMS)`
(`none` models the falsy `false`/`0` argument, which disables the budget). -/
def otTimedOut (startTimeMS : ℚ) (maxTimeMS : Option ℚ) (t : ℚ) : Bool :=
  match maxTimeMS with
  | some m => decide (m < t - startTimeMS)
  | none => false

/-- The `while (!isDone)` walker of `getOrbitTrack`, driven by explicit fuel
(`none` when the fuel runs out, modelling that without a time budget the
source loop need not terminate): sample; on a crossing stop if the step was
already refined to 500, else back up one step and refine it to 500; otherwise
append the sample and advance; in either case the time budget can also
stop the walk. -/
def orbitLoopFuel (sample : ℚ → ℚ × ℚ) (startTimeMS : ℚ) (maxTimeMS : Option ℚ) :
    ℕ → OTState → Option (List (ℚ × ℚ))
  | 0, _ => none
  | fuel + 1, st =>
    let cur := sample st.curTimeMS
    if crossesAntemeridian st.lastLng (some cur.2) then
      let refined := st.stepMS = 500
      let st' := { st with curTimeMS := st.curTimeMS - st.stepMS, stepMS := 500 }
      if refined ∨ otTimedOut startTimeMS maxTimeMS st'.curTimeMS then some st'.latLons
      else orbitLoopFuel sample startTimeMS maxTimeMS fuel st'
    else
      let st' := { st with latLons := st.latLons ++ [cur],
                           curTimeMS := st.curTimeMS + st.stepMS,
                           lastLng := some cur.2 }
      if otTimedOut startTimeMS maxTimeMS st'.curTimeMS then some st'.latLons
      else orbitLoopFuel sample startTimeMS maxTimeMS fuel st'

/-- String interpolation `${x}` of a number-or-`undefined` argument as it
lands in a cache key. -/
def jsNumArgString (x : Option Int) : String :=
  match x with
  | none => "undefined"
  | some v => toString v

/-- Embeds `TLEJS.getOrbitTrack(TLEArr, startTimeMS, stepMS, maxTimeMS)`:
empty result on a falsy start time; memoized under the trimmed TLE string,
`(startTimeMS/10000).toFixed()` and the raw `stepMS` argument; a falsy
`stepMS` defaults to 60000.  `none` as first component means the walker ran
out of fuel (the source would still be looping). -/
def getOrbitTrack (sample : List String → ℚ → ℚ × ℚ) (fuel : ℕ)
    (TLEArr : List String) (startTimeMS : Int) (stepMS : Option Int)
    (maxTimeMS : Option Int) (st : CacheState) :
    Option (List (ℚ × ℚ)) × CacheState :=
  if startTimeMS = 0 then (some [], st)
  else
    let tleStrTrimmed := first30 (String.join TLEArr)
    let startTime := jsToFixed0 ((startTimeMS : ℚ) / 10000)
    let cacheKey := "getOrbitTrack-" ++ tleStrTrimmed ++ "-" ++ toString startTime
      ++ "-" ++ jsNumArgString stepMS
    match lookupCache st.ot cacheKey with
    | some track => (some track, st)
    | none =>
      let stepMSCopy : ℚ :=
        match stepMS with
        | none => 60000
        | some 0 => 60000
        | some v => (v : ℚ)
      match orbitLoopFuel (sample TLEArr) (startTimeMS : ℚ)
          (maxTimeMS.map (fun m => (m : ℚ))) fuel
          { latLons := [], curTimeMS := (startTimeMS : ℚ), lastLng := none,
            stepMS := stepMSCopy } with
      | none => (none, st)
      | some track => (some track, { st with ot := setCache st.ot cacheKey track })

/-- Embeds `TLEJS.getGroundTrackLatLng(tle, stepMS, optionalTimeMS)`.  When
the antemeridian search finds a crossing, three tracks are built from the
previous/current/next crossing anchors with the caller's `stepMS` and no time
budget; otherwise a single long-horizon track (600000 ms steps, 86400000 ms
budget) anchored at the query time.  `none` as the payload means some track
walk ran out of fuel (the source would still be looping). -/
def getGroundTrackLatLng (sample : List String → ℚ → ℚ × ℚ) (fuel : ℕ)
    (tle : TLEInput) (stepMS : Option Int) (optionalTimeMS : Option Int)
    (nowMS : Int) (st : CacheState) :
    Except String (Option (List (List (ℚ × ℚ))) × CacheState) := do
  let timeMS := jsOrInt optionalTimeMS nowMS
  let timeS := toString (jsToFixed0 ((timeMS : ℚ) / 1000))
  let parsedTLE ← parseTLE tle
  let tleStrTrimmed ←
    match parsedTLE.arr[1]? with
    | none => .error "TypeError: line is undefined"
    | some l2 => pure (jsSubstr l2 0 30)
  let orbitTimeMS ← getOrbitTimeMS tle
  let (curOrbitStartMS, st1) ←
    getLastAntemeridianCrossingTimeMS sample (.record parsedTLE) (some timeMS) nowMS st
  if curOrbitStartMS ≠ -1 then
    let curOrbitStartS := toString (jsToFixed0 ((curOrbitStartMS : ℚ) / 1000))
    let cacheKey := "getGroundTrackLatLng-" ++ tleStrTrimmed ++ "-"
      ++ jsNumArgString stepMS ++ "-" ++ curOrbitStartS
    match lookupCache st1.gt cacheKey with
    | some v => pure (some v, st1)
    | none =>
      let (lastOrbitStartMS, st2) ←
        getLastAntemeridianCrossingTimeMS sample tle (some (curOrbitStartMS - 10000)) nowMS st1
      let (nextOrbitStartMS, st3) ←
        getLastAntemeridianCrossingTimeMS sample tle
          (orbitTimeMS.map (fun o => curOrbitStartMS + o + 1000 * 60 * 30)) nowMS st2
      match getOrbitTrack sample fuel parsedTLE.arr lastOrbitStartMS stepMS none st3 with
      | (none, st4) => pure (none, st4)
      | (some tr1, st4) =>
        match getOrbitTrack sample fuel parsedTLE.arr curOrbitStartMS stepMS none st4 with
        | (none, st5) => pure (none, st5)
        | (some tr2, st5) =>
          match getOrbitTrack sample fuel parsedTLE.arr nextOrbitStartMS stepMS none st5 with
          | (none, st6) => pure (none, st6)
          | (some tr3, st6) =>
            let orbitLatLons := [tr1, tr2, tr3]
            pure (some orbitLatLons, { st6 with gt := setCache st6.gt cacheKey orbitLatLons })
  else
    let cacheKey := "getGroundTrackLatLng-" ++ tleStrTrimmed ++ "-"
      ++ jsNumArgString stepMS ++ "-" ++ timeS
    match lookupCache st1.gt cacheKey with
    | some v => pure (some v, st1)
    | none =>
      match getOrbitTrack sample fuel parsedTLE.arr timeMS (some 600000) (some 86400000) st1 with
      | (none, st2) => pure (none, st2)
      | (some tr, st2) =>
        let v := [tr]
        pure (some v, { st2 with gt := setCache st2.gt cacheKey v })

/-- Ground-track assembly exactly as claim C7 words it, stated from the
claim for comparison against `getGroundTrackLatLng`: when the
antemeridian-crossing search finds a crossing, exactly the three orbit tracks
built from the previous, current and next crossing anchors, in that order;
when it reports no discoverable crossing (`-1`), a single-element sequence
holding one long-horizon track (600000 ms steps, 86400000 ms cap) anchored at
the query time.  Cache state is threaded through the same sub-calls but not
returned. -/
def claimC7GroundTrack (sample : List String → ℚ → ℚ × ℚ) (fuel : ℕ)
    (tle : TLEInput) (stepMS : Option Int) (optionalTimeMS : Option Int)
    (nowMS : Int) (st : CacheState) :
    Except String (Option (List (List (ℚ × ℚ)))) := do
  let timeMS := jsOrInt optionalTimeMS nowMS
  let parsedTLE ← parseTLE tle
  let orbitTimeMS ← getOrbitTimeMS tle
  let (curOrbitStartMS, st1) ←
    getLastAntemeridianCrossingTimeMS sample (.record parsedTLE) (some timeMS) nowMS st
  if curOrbitStartMS = -1 then
    pure ((getOrbitTrack sample fuel parsedTLE.arr timeMS (some 600000) (some 86400000) st1).1.map
      (fun tr => [tr]))
  else
    let (lastOrbitStartMS, st2) ←
      getLastAntemeridianCrossingTimeMS sample tle (some (curOrbitStartMS - 10000)) nowMS st1
    let (nextOrbitStartMS, st3) ←
      getLastAntemeridianCrossingTimeMS sample tle
        (orbitTimeMS.map (fun o => curOrbitStartMS + o + 1000 * 60 * 30)) nowMS st2
    match getOrbitTrack sample fuel parsedTLE.arr lastOrbitStartMS stepMS none st3 with
    | (none, _) => pure none
    | (some previousTrack, st4) =>
      match getOrbitTrack sample fuel parsedTLE.arr curOrbitStartMS stepMS none st4 with
      | (none, _) => pure none
      | (some currentTrack, st5) =>
        match getOrbitTrack sample fuel parsedTLE.arr nextOrbitStartMS stepMS none st5 with
        | (none, _) => pure none
        | (some nextTrack, _) => pure (some [previousTrack, currentTrack, nextTrack])

/-- The published ISS (ZARYA) line 1 used throughout the source's own
documentation examples. -/
def issLine1 : String := "1 25544U 98067A   17206.18396726  .00001961  00000-0  36771-4 0  9993"

/-- An ISS line 2 laid out on the standard 69-character column grid (mean
motion 15.54225995 at columns 52–62), with a matching checksum. -/
def issLine2 : String := "2 25544  51.6400 208.9163 0006317  69.9862  25.2906 15.54225995 67660"

/-- The two ISS lines as an array-form TLE. -/
def issArr : List String := [issLine1, issLine2]

/-- Variant of `issLine1` with the two-digit epoch year changed to 56 (and
the checksum digit updated accordingly). -/
def iss56Line1 : String := "1 25544U 98067A   56206.18396726  .00001961  00000-0  36771-4 0  9996"

/-- A sampler whose sub-satellite longitude is the constant 50°: it never
crosses the antemeridian, so the crossing search can never converge. -/
def sampleConst50 : List String → ℚ → ℚ × ℚ :=
  fun _ _ => (0, 50)

/-- An engine cache with no entries (a freshly constructed instance). -/
def emptyCache : CacheState :=
  { am := [], gt := [], ot := [] }

/-- The net cache update `getLastAntemeridianCrossingTimeMS` performs on
non-convergence: ensure the entry exists (the `[]` initialisation), then
overwrite it with the sentinel. -/
def amSentinelUpdate (st : CacheState) (key : String) : CacheState :=
  let am1 :=
    match lookupCache st.am key with
    | none => setCache st.am key (.times [])
    | some _ => st.am
  { st with am := setCache am1 key .sentinel }


deriving instance DecidableEq for Except

set_option maxRecDepth 40000

/-- Claim C1, counterexample: at longitudes (50, -170) the signs differ and
the second longitude exceeds 100° in magnitude, so the claim's "at least one
of a, b" predicate holds, yet `crossesAntemeridian` returns `false` — the
source only tests `Math.abs(longitude1) > 100`. -/
theorem crossesAntemeridian_claimC1_counterexample :
    crossesAntemeridian (some (50 : ℚ)) (some (-170)) = false
    ∧ isPositive (50 : ℚ) ≠ isPositive (-170 : ℚ)
    ∧ 100 < |(-170 : ℚ)| :=
  ⟨by decide!, by decide!, by norm_num⟩

/-- Claim C1 (amended): for nonzero longitudes, `crossesAntemeridian a b` is
true iff the signs of a and b differ AND the *first* argument has absolute
value greater than 100° (the second argument's magnitude is not consulted;
a zero longitude is falsy and always yields false); in particular
`crossesAntemeridian 179.9 (-179.9)` = true, `crossesAntemeridian 10 (-10)` =
false, and `crossesAntemeridian (-170) 170` = true. -/
theorem crossesAntemeridian_firstArgOnly :
    (∀ a b : ℚ, crossesAntemeridian (some a) (some b) = true ↔
      (a ≠ 0 ∧ b ≠ 0 ∧ isPositive a ≠ isPositive b ∧ 100 < |a|))
    ∧ crossesAntemeridian (some (179.9 : ℚ)) (some (-179.9)) = true
    ∧ crossesAntemeridian (some (10 : ℚ)) (some (-10)) = false
    ∧ crossesAntemeridian (some (-170 : ℚ)) (some 170) = true := by
  have e1 : crossesAntemeridian (some (179.9 : ℚ)) (some (-179.9)) = true := by decide!
  have e2 : crossesAntemeridian (some (10 : ℚ)) (some (-10)) = false := by decide!
  have e3 : crossesAntemeridian (some (-170 : ℚ)) (some 170) = true := by decide!
  refine ⟨fun a b => ?_, e1, e2, e3⟩
  show (if a = 0 ∨ b = 0 then false
        else if isPositive a = isPositive b then false
        else decide (100 < |a|)) = true ↔ _
  split_ifs with h0 hs
  · simp only [Bool.false_eq_true, false_iff]
    rintro ⟨ha, hb, -, -⟩
    rcases h0 with h | h
    · exact ha h
    · exact hb h
  · simp only [Bool.false_eq_true, false_iff]
    rintro ⟨-, -, hne, -⟩
    exact hne hs
  · push_neg at h0
    simp only [decide_eq_true_eq]
    exact ⟨fun h => ⟨h0.1, h0.2, hs, h⟩, fun h => h.2.2.2⟩

/-- Claim C2, evaluation at the failing input: on the line `"--0"` (two minus
signs, `'0'` in the checksum position) the claimed checksum is
`(0 + 2) mod 10 = 2`, but `tleLineChecksum` returns `NaN` (modelled `none`):
the seeding first character `'-'` is fed to `parseInt`, which poisons the
whole reduction with `NaN`. -/
theorem tleLineChecksum_minusSeed_NaN :
    tleLineChecksum "--0" = .ok none ∧ (none : Option Int) ≠ some 2 :=
  ⟨by decide!, by simp⟩

/-- Claim C9: the two public epoch-timestamp entry points,
`getEpochTimestamp` and `getTLEEpochTimestamp`, are extensionally equal — 
both read the epoch day and two-digit epoch year and feed them to
`dayOfYearToTimeStamp` (they differ only in the order of the two reads, which
succeed and fail together). -/
theorem epochTimestamp_accessors_equal (tle : TLEInput) (currentFullYear : Int) :
    getEpochTimestamp tle currentFullYear = getTLEEpochTimestamp tle currentFullYear := by
  unfold getEpochTimestamp getTLEEpochTimestamp getEpochDay getEpochYear tleField
  cases hp : parseTLE tle with
  | error e => simp [hp, Bind.bind, Except.bind, Except.map]
  | ok p =>
    cases h0 : p.arr[0]? with
    | none => simp [hp, h0, Bind.bind, Except.bind, Except.map]
    | some l => simp [hp, h0, Bind.bind, Except.bind, Except.map, pure, Except.pure]

/-- Claim C10: `getAverageOrbitLengthMins` calls `tle.join('')` directly on
its argument, so every string input (and every record input) throws a
`TypeError` instead of returning a value; array input succeeds, and the other
accessors (here `getMeanMotion`) do accept string input. -/
theorem getAverageOrbitLengthMins_arrayOnly :
    (∀ s : String, getAverageOrbitLengthMins (.str s) =
      .error "TypeError: tle.join is not a function")
    ∧ (∀ r : TLERec, getAverageOrbitLengthMins (.record r) =
      .error "TypeError: tle.join is not a function")
    ∧ getAverageOrbitLengthMins (.arr issArr) =
      .ok (some ((24 * 60 : ℚ) / (1554225995 / 100000000)))
    ∧ getMeanMotion (.str (issLine1 ++ "\n" ++ issLine2)) =
      .ok (some (1554225995 / 100000000 : ℚ)) :=
  ⟨fun _ => rfl, fun _ => rfl, by decide!, by decide!⟩

/-- Claim C8, counterexample: the code's decode of `"36771-4"` is
`0.000036771 = 36771·10⁻⁹` (and of `"12345-4"` is `1.2345·10⁻⁵`), agreeing
with the claim's cited examples, but the claim's formula
`n · 10^-(numDigits-1) · 10^exponent` gives `36771·10⁻⁸` at the same input:
the scaling that places the decimal point before the first digit is
`10^-numDigits`, not `10^-(numDigits-1)`. -/
theorem decimalAssumedE_claimC8_counterexample :
    decimalAssumedEToFloat "36771-4" = some ((36771 : ℚ) / 10 ^ 9)
    ∧ decimalAssumedEToFloat "12345-4" = some ((12345 : ℚ) / 10 ^ 9)
    ∧ claimC8Decode 36771 (-4) ≠ (36771 : ℚ) / 10 ^ 9 := by
  refine ⟨by decide!, by decide!, ?_⟩
  have h : claimC8Decode 36771 (-4) = (36771 : ℚ) / 10 ^ 8 := by decide!
  rw [h]
  norm_num

/-- Claim C4, counterexample: the array below is a checksum-valid TLE whose
two-digit epoch year is 56.  The claim's mapping sends 56 to 2056, but the
code hands the raw `56` to `new Date('1/1/56 …')`, whose legacy parser reads
it as 1956, so `getEpochTimestamp` disagrees with the claimed value. -/
theorem getEpochTimestamp_year56_counterexample :
    isValidTLE (.arr [iss56Line1, issLine2]) = .ok true
    ∧ getEpochYear (.arr [iss56Line1, issLine2]) = .ok (some 56)
    ∧ getEpochDay (.arr [iss56Line1, issLine2]) = .ok (some (20618396726 / 100000000 : ℚ))
    ∧ getEpochTimestamp (.arr [iss56Line1, issLine2]) 2026 ≠
        .ok (some (claimC4EpochTimestamp 56 (20618396726 / 100000000))) := by
  refine ⟨by decide!, by decide!, by decide!, ?_⟩
  intro h
  have h1 : getEpochTimestamp (.arr [iss56Line1, issLine2]) 2026
      = .ok (some (-424121705229 : Int)) := by decide!
  have h2 : claimC4EpochTimestamp 56 (20618396726 / 100000000) = 2731638294771 := by decide!
  rw [h1, h2] at h
  simp only [Except.ok.injEq, Option.some.injEq] at h
  omega

theorem exceptBind_ok {ε α β : Type} (a : α) (f : α → Except ε β) :
    (Except.ok a >>= f) = f a := rfl

theorem exceptBind_error {ε α β : Type} (e : ε) (f : α → Except ε β) :
    ((Except.error e : Except ε α) >>= f) = .error e := rfl

theorem exceptPure {ε α : Type} (a : α) : (pure a : Except ε α) = .ok a := rfl

theorem parseTLE_record (r : TLERec) : parseTLE (.record r) = .ok r := rfl

/-- A line with at least two characters has a nonempty body after the
checksum character is removed, so its checksum computation cannot throw. -/
theorem tleLineChecksum_isOk {l : String} (h : 2 ≤ l.length) :
    ∃ v, tleLineChecksum l = .ok v := by
  have hlen : l.toList.dropLast.length = l.length - 1 := by
    rw [List.length_dropLast]
    rfl
  rcases hm : l.toList.dropLast with _ | ⟨c0, rest⟩
  · rw [hm] at hlen
    simp at hlen
    omega
  · cases rest with
    | nil => exact ⟨_, by simp only [tleLineChecksum, hm]; rfl⟩
    | cons c1 rest2 => exact ⟨_, by simp only [tleLineChecksum, hm]; rfl⟩

/-- Claim C3, counterexample: on the structurally invalid two-line record
`["", ""]` the validity check does not return `false` — it propagates the
`'Character array empty!'` exception thrown by the checksum computation,
which runs before the line-number verdict is acted on. -/
theorem isValidTLE_emptyLines_throws :
    isValidTLE (.arr ["", ""]) = .error "Character array empty!" := by decide!

/-- Claim C3 (amended): `isValidTLE` returns `false` (without raising) on
every record whose parsed line count differs from 2, and on two-line records
it returns a boolean whenever both lines have at least 2 characters; it
raises only when checksum computation is attempted on a line whose body is
empty after removing the checksum character (a line of length ≤ 1, e.g. an
empty line). -/
theorem isValidTLE_amended (tle : TLEInput) (p : TLERec) (l1 l2 : String)
    (hp : parseTLE tle = .ok p) :
    (p.arr.length ≠ 2 → isValidTLE tle = .ok false)
    ∧ (p.arr = [l1, l2] → 2 ≤ l1.length → 2 ≤ l2.length →
        ∃ b, isValidTLE tle = .ok b) := by
  constructor
  · intro hlen
    simp only [isValidTLE, hp, exceptBind_ok]
    rcases harr : p.arr with _ | ⟨a, _ | ⟨b, _ | ⟨c, rest⟩⟩⟩
    · rfl
    · rfl
    · exact absurd (by rw [harr]; rfl) hlen
    · rfl
  · intro harr h1 h2
    obtain ⟨v1, hv1⟩ := tleLineChecksum_isOk h1
    obtain ⟨v2, hv2⟩ := tleLineChecksum_isOk h2
    have e1 : ∃ w1, isValidTLELine p 0 l1 = .ok w1 := by
      simp only [isValidTLELine, getLineNumber1, getChecksum1, tleField, parseTLE_record,
        exceptBind_ok, exceptPure, harr, List.getElem?_cons_zero, Except.map, hv1]
      exact ⟨_, rfl⟩
    have e2 : ∃ w2, isValidTLELine p 1 l2 = .ok w2 := by
      simp only [isValidTLELine, getLineNumber2, getChecksum2, tleField, parseTLE_record,
        exceptBind_ok, exceptPure, harr, List.getElem?_cons_zero, List.getElem?_cons_succ,
        Except.map, hv2]
      exact ⟨_, rfl⟩
    obtain ⟨w1, hw1⟩ := e1
    obtain ⟨w2, hw2⟩ := e2
    simp only [isValidTLE, hp, exceptBind_ok, harr, hw1, hw2]
    cases w1
    · exact ⟨false, rfl⟩
    · exact ⟨w2, rfl⟩

/-- Witness for claim C3's amended theorem at concrete inputs: a four-line
array (three lines after the name line is dropped) and the two-line ISS TLE
(both lines 69 characters long). -/
theorem isValidTLE_amended_witness :
    ((⟨"name", ["a", "b", "c"]⟩ : TLERec).arr.length ≠ 2 →
      isValidTLE (.arr ["name", "a", "b", "c"]) = .ok false)
    ∧ ((⟨"name", ["a", "b", "c"]⟩ : TLERec).arr = ["x", "y"] → 2 ≤ "x".length →
        2 ≤ "y".length → ∃ b, isValidTLE (.arr ["name", "a", "b", "c"]) = .ok b) :=
  isValidTLE_amended (.arr ["name", "a", "b", "c"]) ⟨"name", ["a", "b", "c"]⟩ "x" "y"
    (by decide!)

theorem jsOrInt_some_ne_zero {y d : Int} (h : y ≠ 0) : jsOrInt (some y) d = y := by
  unfold jsOrInt
  rcases y with n | n
  · cases n with
    | zero => exact absurd rfl h
    | succ m => rfl
  · rfl

/-- Claim C4 (amended): for a TLE whose two-digit epoch year parses to
`y` with 1 ≤ y ≤ 99 and whose epoch day parses to `d`, `getEpochTimestamp`
returns `floor(startOfYear(Y) + (d - 1) · 86400000)` where `Y` follows the
JS legacy `Date`-parser mapping `1–49 → 2000+y`, `50–99 → 1900+y` (not the
TLE convention 57–99 → 1900s, 00–56 → 2000s; an epoch year of 00 does not
reach this mapping at all — it falls back to the current calendar year). -/
theorem getEpochTimestamp_amended (tle : TLEInput) (currentFullYear y : Int) (d : ℚ)
    (hy : getEpochYear tle = .ok (some y)) (hd : getEpochDay tle = .ok (some d))
    (h1 : 1 ≤ y) (h99 : y ≤ 99) :
    getEpochTimestamp tle currentFullYear =
      .ok (some ⌊((86400000 * daysFromCivil (if y ≤ 49 then 2000 + y else 1900 + y) 1 1
          : Int) : ℚ) + (d - 1) * 86400000⌋) := by
  simp only [getEpochTimestamp, hy, hd, exceptBind_ok, exceptPure]
  unfold dayOfYearToTimeStamp
  rw [jsOrInt_some_ne_zero (by omega)]
  unfold jsDateJan1MS
  by_cases h49 : y ≤ 49
  · rw [if_pos (by omega : (0:ℤ) ≤ y ∧ y ≤ 49), if_pos h49]
  · rw [if_neg (by omega : ¬((0:ℤ) ≤ y ∧ y ≤ 49)),
      if_pos (by omega : (50:ℤ) ≤ y ∧ y ≤ 99), if_neg h49]

/-- Witness for claim C4's amended theorem: the ISS TLE with epoch year 17
and epoch day 206.18396726, resolved against current year 2026. -/
theorem getEpochTimestamp_amended_witness :
    getEpochTimestamp (.arr issArr) 2026 =
      .ok (some ⌊((86400000 * daysFromCivil
          (if (17 : Int) ≤ 49 then 2000 + 17 else 1900 + 17) 1 1 : Int) : ℚ)
        + ((20618396726 / 100000000 : ℚ) - 1) * 86400000⌋) :=
  getEpochTimestamp_amended (.arr issArr) 2026 17 (20618396726 / 100000000)
    (by decide!) (by decide!) (by norm_num) (by norm_num)

/-- A nonempty all-digit string coerces under `ToNumber` to its decimal
value. -/
theorem jsToNumber_digits {l : List Char} (hne : l ≠ []) (hdig : ∀ c ∈ l, c.isDigit) :
    jsToNumber (String.mk l) = some ((natOfDigits l : ℚ)) := by
  obtain ⟨c, cs, rfl⟩ : ∃ c cs, l = c :: cs := by
    cases l with
    | nil => exact absurd rfl hne
    | cons c cs => exact ⟨c, cs, rfl⟩
  have hcd : c.isDigit := hdig c (List.mem_cons_self c cs)
  have hcsp : c ≠ ' ' := by intro h; rw [h] at hcd; exact absurd hcd (by decide)
  have hcm : c ≠ '-' := by intro h; rw [h] at hcd; exact absurd hcd (by decide)
  have hcp : c ≠ '+' := by intro h; rw [h] at hcd; exact absurd hcd (by decide)
  have hrev : (c :: cs).reverse.dropWhile (fun x => x = ' ') = (c :: cs).reverse := by
    rcases hr : (c :: cs).reverse with _ | ⟨d, ds⟩
    · exact absurd (List.reverse_eq_nil_iff.mp hr) (List.cons_ne_nil c cs)
    · have hd : d.isDigit := hdig d (List.mem_reverse.mp (by
        rw [hr]; exact List.mem_cons_self _ _))
      have hdsp : ¬(d = ' ') := by intro h; rw [h] at hd; exact absurd hd (by decide)
      rw [List.dropWhile_cons_of_neg (by simpa using hdsp)]
  have hfwd : (c :: cs).dropWhile (fun x => x = ' ') = c :: cs :=
    List.dropWhile_cons_of_neg (by simpa using hcsp)
  have htake : (c :: cs).takeWhile Char.isDigit = c :: cs :=
    List.takeWhile_eq_self_iff.mpr hdig
  have hdrop : (c :: cs).dropWhile Char.isDigit = [] :=
    List.dropWhile_eq_nil_iff.mpr hdig
  simp only [jsToNumber, show (String.mk (c :: cs)).toList = c :: cs from rfl,
    hfwd, hrev, List.reverse_reverse, htake, hdrop]
  rw [if_neg hcm, if_neg hcp]
  rw [if_neg (List.cons_ne_nil c cs)]

/-- A nonempty all-digit string through `toLeadingDecimal` becomes its value
scaled by `10^-numDigits`. -/
theorem toLeadingDecimal_digits {l : List Char} (hne : l ≠ []) (hdig : ∀ c ∈ l, c.isDigit) :
    toLeadingDecimal (String.mk l) =
      some ((natOfDigits l : ℚ) * (10 : ℚ) ^ (-(getDigitCount (natOfDigits l : ℚ) : ℤ))) := by
  unfold toLeadingDecimal
  rw [jsToNumber_digits hne hdig]
  rfl

/-- Claim C8 (amended): for a DECIMAL_ASSUMED_E field whose body is a
nonempty digit string of value `n` and whose last two characters parse (as
`parseInt` does) to the exponent `e`, the decode is `toPrecision(5)` of
`n · 10^-numDigits(n) · 10^e` — the scaling that places the assumed decimal
point immediately before the first significant digit is `10^-numDigits`, not
`10^-(numDigits-1)`; the claim's cited examples
(`"36771-4" ↦ 0.000036771`, `"12345-4" ↦ 1.2345·10⁻⁵`) are instances of this
corrected rule. -/
theorem decimalAssumedE_amended (body es : List Char) (e : Int)
    (hne : body ≠ []) (hdig : ∀ c ∈ body, c.isDigit)
    (hes : es.length = 2) (he : jsParseIntList es = some e) :
    decimalAssumedEToFloat (String.mk (body ++ es)) =
      some (jsToPrecision5 ((natOfDigits body : ℚ)
        * (10 : ℚ) ^ (-(getDigitCount (natOfDigits body : ℚ) : ℤ)) * (10 : ℚ) ^ e)) := by
  have hlen : (String.mk (body ++ es)).length = body.length + 2 := by
    show (body ++ es).length = body.length + 2
    rw [List.length_append, hes]
  have h22 : body.length + 2 - 2 = body.length := by omega
  have hsub1 : jsSubstr (String.mk (body ++ es)) 0 ((String.mk (body ++ es)).length - 2)
      = String.mk body := by
    unfold jsSubstr
    rw [hlen]
    congr 1
    show ((body ++ es).drop 0).take (body.length + 2 - 2) = body
    rw [List.drop_zero, h22, List.take_left]
  have hsub2 : jsSubstr (String.mk (body ++ es)) ((String.mk (body ++ es)).length - 2) 2
      = String.mk es := by
    unfold jsSubstr
    rw [hlen]
    congr 1
    show ((body ++ es).drop (body.length + 2 - 2)).take 2 = es
    rw [h22, List.drop_left]
    exact List.take_of_length_le (by omega)
  simp only [decimalAssumedEToFloat]
  rw [hsub1, hsub2, toLeadingDecimal_digits hne hdig,
    show jsParseInt (String.mk es) = jsParseIntList es from rfl, he]

/-- Witness for claim C8's amended theorem at the body `"12345"` with
exponent suffix `"-4"`. -/
theorem decimalAssumedE_amended_witness :
    decimalAssumedEToFloat (String.mk (['1','2','3','4','5'] ++ ['-','4'])) =
      some (jsToPrecision5 ((natOfDigits ['1','2','3','4','5'] : ℚ)
        * (10 : ℚ) ^ (-(getDigitCount (natOfDigits ['1','2','3','4','5'] : ℚ) : ℤ))
        * (10 : ℚ) ^ (-4 : ℤ))) :=
  decimalAssumedE_amended ['1','2','3','4','5'] ['-','4'] (-4)
    (by simp) (by decide!) (by decide!) (by decide!)

theorem searchStep_tries (lng : ℚ → ℚ) (st : SearchSt) :
    (searchStep lng st).tries = st.tries + 1 := by
  unfold searchStep
  by_cases h : crossesAntemeridian st.lastLng (some (lng st.curTimeMS)) = true
  · simp [h]
  · simp [h]

theorem searchLoopFuel_succ_eq (lng : ℚ → ℚ) :
    ∀ (fuel : ℕ) (st : SearchSt), 1 ≤ fuel → 1001 ≤ st.tries + fuel →
      searchLoopFuel lng (fuel + 1) st = searchLoopFuel lng fuel st := by
  intro fuel
  induction fuel with
  | zero => intro st h1 _; omega
  | succ n ih =>
    intro st h1 hcap
    simp only [searchLoopFuel]
    by_cases hd : searchDone (searchStep lng st) = true
    · simp [hd]
    · simp only [hd, if_false]
      have hnd : ¬((searchStep lng st).step < 500) ∧ ¬(1001 ≤ (searchStep lng st).tries) := by
        simpa [searchDone, Bool.or_eq_true, decide_eq_true_eq, not_or] using hd
      have htr : (searchStep lng st).tries = st.tries + 1 := searchStep_tries lng st
      have hn1 : 1 ≤ n := by
        by_contra hcon
        have hn0 : n = 0 := by omega
        subst hn0
        exact hnd.2 (by omega)
      exact ih (searchStep lng st) hn1 (by omega)

theorem searchLoopFuel_done (lng : ℚ → ℚ) :
    ∀ (fuel : ℕ) (st : SearchSt), 1 ≤ fuel → 1001 ≤ st.tries + fuel → st.tries ≤ 1000 →
      ((searchLoopFuel lng fuel st).step < 500 ∨ (searchLoopFuel lng fuel st).tries = 1001)
      ∧ (searchLoopFuel lng fuel st).tries ≤ 1001 := by
  intro fuel
  induction fuel with
  | zero => intro st h1 _ _; omega
  | succ n ih =>
    intro st h1 hcap hle
    simp only [searchLoopFuel]
    have htr : (searchStep lng st).tries = st.tries + 1 := searchStep_tries lng st
    by_cases hd : searchDone (searchStep lng st) = true
    · simp only [hd, if_true]
      have hdone : (searchStep lng st).step < 500 ∨ 1001 ≤ (searchStep lng st).tries := by
        simpa [searchDone, Bool.or_eq_true, decide_eq_true_eq] using hd
      rcases hdone with h | h
      · exact ⟨Or.inl h, by omega⟩
      · exact ⟨Or.inr (by omega), by omega⟩
    · simp only [hd, if_false]
      have hnd : ¬((searchStep lng st).step < 500) ∧ ¬(1001 ≤ (searchStep lng st).tries) := by
        simpa [searchDone, Bool.or_eq_true, decide_eq_true_eq, not_or] using hd
      have hn1 : 1 ≤ n := by
        by_contra hcon
        have hn0 : n = 0 := by omega
        subst hn0
        exact hnd.2 (by omega)
      exact ih (searchStep lng st) hn1 (by omega) (by omega)

/-- Claim C6: for an arbitrary total longitude sampler and any reference
time, the antemeridian search loop always terminates — any fuel of at least
1001 body iterations yields the same final state, and at exit either the
step size has dropped below 500 ms or the `tries` counter has hit the
1000-iteration cap (the cap check reads the pre-increment counter, so the
final counter is 1001 in that case, and never exceeds it). -/
theorem searchLoop_terminates (lng : ℚ → ℚ) (timeMS : Int) (extra : ℕ) :
    searchLoopFuel lng (1001 + extra) (initSearch timeMS)
      = searchLoopFuel lng 1001 (initSearch timeMS)
    ∧ ((searchLoopFuel lng 1001 (initSearch timeMS)).step < 500
        ∨ (searchLoopFuel lng 1001 (initSearch timeMS)).tries = 1001)
    ∧ (searchLoopFuel lng 1001 (initSearch timeMS)).tries ≤ 1001 := by
  have hinit : (initSearch timeMS).tries = 0 := rfl
  have hdone := searchLoopFuel_done lng 1001 (initSearch timeMS)
    (by omega) (by omega) (by omega)
  refine ⟨?_, hdone.1, hdone.2⟩
  induction extra with
  | zero => rfl
  | succ n ih =>
    have hstep := searchLoopFuel_succ_eq lng (1001 + n) (initSearch timeMS)
      (by omega) (by omega)
    calc searchLoopFuel lng (1001 + (n + 1)) (initSearch timeMS)
        = searchLoopFuel lng ((1001 + n) + 1) (initSearch timeMS) := rfl
      _ = searchLoopFuel lng (1001 + n) (initSearch timeMS) := hstep
      _ = searchLoopFuel lng 1001 (initSearch timeMS) := ih

/-- Claim C5: when a `getLastAntemeridianCrossingTimeMS` call misses the
crossing cache and its search reaches the 1000-iteration cap without
convergence, the call stores the sentinel in the antemeridian-crossing cache
for that TLE, returns `-1`, and every subsequent call for the same TLE — any
reference time, any clock value, even any sampler (the search cannot rerun) —
returns `-1` with the cache unchanged and without raising. -/
theorem getLastAntemeridianCrossing_nonconvergence_sentinel
    (sample sample2 : List String → ℚ → ℚ × ℚ) (tle : TLEInput)
    (timeMS timeMS2 : Option Int) (nowMS nowMS2 : Int) (st : CacheState)
    (p : TLERec) (avg : Option ℚ)
    (hp : parseTLE tle = .ok p)
    (havg : getAverageOrbitLengthMins (.arr p.arr) = .ok avg)
    (hmiss : getCachedLastAntemeridianCrossingTimeMS (avg.map (fun x => x * 60 * 1000))
        st.am (first30 (String.join p.arr)) timeMS = none)
    (hcap : (searchLoopFuel (fun q => (sample p.arr q).2) 1001
        (initSearch (jsOrInt timeMS nowMS))).tries = 1001) :
    getLastAntemeridianCrossingTimeMS sample tle timeMS nowMS st =
      .ok (-1, amSentinelUpdate st (first30 (String.join p.arr)))
    ∧ lookupCache (amSentinelUpdate st (first30 (String.join p.arr))).am
        (first30 (String.join p.arr)) = some .sentinel
    ∧ getLastAntemeridianCrossingTimeMS sample2 tle timeMS2 nowMS2
        (amSentinelUpdate st (first30 (String.join p.arr))) =
      .ok (-1, amSentinelUpdate st (first30 (String.join p.arr))) := by
  have hsent : lookupCache (amSentinelUpdate st (first30 (String.join p.arr))).am
      (first30 (String.join p.arr)) = some .sentinel := by
    simp [amSentinelUpdate, lookupCache, setCache, List.find?]
  refine ⟨?_, hsent, ?_⟩
  · simp only [getLastAntemeridianCrossingTimeMS, hp, havg, exceptBind_ok, hmiss, hcap]
    norm_num [amSentinelUpdate]
    rfl
  · simp only [getLastAntemeridianCrossingTimeMS, hp, havg, exceptBind_ok]
    have hc2 : getCachedLastAntemeridianCrossingTimeMS (avg.map (fun x => x * 60 * 1000))
        (amSentinelUpdate st (first30 (String.join p.arr))).am
        (first30 (String.join p.arr)) timeMS2 = some (-1) := by
      unfold getCachedLastAntemeridianCrossingTimeMS
      rw [hsent]
    rw [hc2]
    rfl

/-- Witness for claim C5 at concrete inputs: the constant-longitude sampler
never crosses the antemeridian, so on a fresh cache the search runs its full
1001 iterations, the sentinel is stored for the ISS TLE, and a second call
with a different sampler, reference time and clock still returns `-1` with
the cache unchanged. -/
theorem getLastAntemeridianCrossing_nonconvergence_sentinel_witness :
    getLastAntemeridianCrossingTimeMS sampleConst50 (.arr issArr) (some 1000000) 0 emptyCache =
      .ok (-1, amSentinelUpdate emptyCache (first30 (String.join issArr)))
    ∧ lookupCache (amSentinelUpdate emptyCache (first30 (String.join issArr))).am
        (first30 (String.join issArr)) = some .sentinel
    ∧ getLastAntemeridianCrossingTimeMS (fun _ _ => ((1 : ℚ), (170 : ℚ))) (.arr issArr)
        (some 55) 7 (amSentinelUpdate emptyCache (first30 (String.join issArr))) =
      .ok (-1, amSentinelUpdate emptyCache (first30 (String.join issArr))) :=
  getLastAntemeridianCrossing_nonconvergence_sentinel sampleConst50
    (fun _ _ => ((1 : ℚ), (170 : ℚ))) (.arr issArr) (some 1000000) (some 55) 0 7 emptyCache
    ⟨"Unknown", issArr⟩ (some ((24 * 60 : ℚ) / (1554225995 / 100000000)))
    (by decide!) (by decide!) (by decide!) (by decide!)

theorem exceptMap_ok {ε α β : Type} (f : α → β) (a : α) :
    (f <$> (Except.ok a : Except ε α)) = .ok (f a) := rfl

theorem exceptMap_error {ε α β : Type} (f : α → β) (e : ε) :
    (f <$> (Except.error e : Except ε α)) = .error e := rfl

theorem lookupCache_nil {α : Type} (k : String) :
    lookupCache ([] : List (String × α)) k = none := rfl

/-- The antemeridian search only touches the `antemeridianCrossings` slice of
the cache: the ground-track and orbit-track slices come back unchanged. -/
theorem getLastAM_preserves_gt_ot (sample : List String → ℚ → ℚ × ℚ) (tle : TLEInput)
    (timeMS : Option Int) (nowMS : Int) (st : CacheState) (v : Int) (st' : CacheState)
    (h : getLastAntemeridianCrossingTimeMS sample tle timeMS nowMS st = .ok (v, st')) :
    st'.gt = st.gt ∧ st'.ot = st.ot := by
  unfold getLastAntemeridianCrossingTimeMS at h
  cases hp : parseTLE tle with
  | error e => rw [hp] at h; exact absurd h (by simp [exceptBind_error])
  | ok p =>
    rw [hp] at h
    simp only [exceptBind_ok] at h
    cases havg : getAverageOrbitLengthMins (.arr p.arr) with
    | error e => rw [havg] at h; exact absurd h (by simp [exceptBind_error])
    | ok avg =>
      rw [havg] at h
      simp only [exceptBind_ok] at h
      cases hc : getCachedLastAntemeridianCrossingTimeMS
          (avg.map (fun x => x * 60 * 1000)) st.am
          (first30 (String.join p.arr)) timeMS with
      | some v0 =>
        rw [hc] at h
        simp only [exceptPure, Except.ok.injEq, Prod.mk.injEq] at h
        rw [← h.2]
        exact ⟨rfl, rfl⟩
      | none =>
        rw [hc] at h
        simp only [exceptPure, Except.ok.injEq, Prod.mk.injEq] at h
        rw [← h.2]
        exact ⟨rfl, rfl⟩

/-- Claim C7: with no ground-track entries cached, `getGroundTrackLatLng`
returns (when the walks terminate) exactly what the claim describes: a
single-element sequence holding one long-horizon track (600000 ms steps,
86400000 ms cap, anchored at the query time) when the antemeridian search
reports no discoverable crossing, and otherwise exactly the three orbit
tracks built from the previous, current and next crossing anchors, in that
order — stated as equality of the returned tracks with the claim-side
recomposition `claimC7GroundTrack`. -/
theorem getGroundTrackLatLng_structure (sample : List String → ℚ → ℚ × ℚ) (fuel : ℕ)
    (tle : TLEInput) (stepMS optionalTimeMS : Option Int) (nowMS : Int)
    (st : CacheState) (hgt : st.gt = []) :
    Prod.fst <$> getGroundTrackLatLng sample fuel tle stepMS optionalTimeMS nowMS st
      = claimC7GroundTrack sample fuel tle stepMS optionalTimeMS nowMS st := by
  unfold getGroundTrackLatLng claimC7GroundTrack
  cases hp : parseTLE tle with
  | error e => simp [hp, exceptBind_error, exceptMap_error]
  | ok p =>
    simp only [hp, exceptPure, exceptBind_ok]
    cases hl2 : p.arr[1]? with
    | none =>
      have hmm : getOrbitTimeMS tle = .error "TypeError: line is undefined" := by
        unfold getOrbitTimeMS getMeanMotion tleField
        simp [hp, hl2, exceptBind_error, exceptBind_ok, Except.map]
      simp [hl2, hmm, exceptBind_error, exceptMap_error]
    | some l2 =>
      simp only [hl2, exceptPure, exceptBind_ok]
      cases hot : getOrbitTimeMS tle with
      | error e => simp [hot, exceptBind_error, exceptMap_error]
      | ok orbitT =>
        simp only [hot, exceptPure, exceptBind_ok]
        cases hrun : getLastAntemeridianCrossingTimeMS sample (.record p)
            (some (jsOrInt optionalTimeMS nowMS)) nowMS st with
        | error e => simp [hrun, exceptBind_error, exceptMap_error]
        | ok pr =>
          obtain ⟨c, st1⟩ := pr
          have hgt1 : st1.gt = [] := by
            rw [(getLastAM_preserves_gt_ot _ _ _ _ _ _ _ hrun).1, hgt]
          simp only [hrun, exceptPure, exceptBind_ok]
          by_cases hc : c = -1
          · subst hc
            rw [if_neg (by simp : ¬((-1 : Int) ≠ -1)), if_pos rfl, hgt1, lookupCache_nil]
            cases hotr : getOrbitTrack sample fuel p.arr (jsOrInt optionalTimeMS nowMS)
                (some 600000) (some 86400000) st1 with
            | mk tr? st2 =>
              cases tr? with
              | none => simp [hotr, exceptPure, exceptMap_ok]
              | some tr => simp [hotr, exceptPure, exceptMap_ok]
          · rw [if_pos hc, if_neg hc, hgt1, lookupCache_nil]
            cases hlast : getLastAntemeridianCrossingTimeMS sample tle
                (some (c - 10000)) nowMS st1 with
            | error e => simp [hlast, exceptBind_error, exceptMap_error]
            | ok pr2 =>
              obtain ⟨lastC, st2⟩ := pr2
              simp only [hlast, exceptPure, exceptBind_ok]
              cases hnext : getLastAntemeridianCrossingTimeMS sample tle
                  (orbitT.map (fun o => c + o + 1000 * 60 * 30)) nowMS st2 with
              | error e => simp [hnext, exceptBind_error, exceptMap_error]
              | ok pr3 =>
                obtain ⟨nextC, st3⟩ := pr3
                simp only [hnext, exceptPure, exceptBind_ok]
                cases h1 : getOrbitTrack sample fuel p.arr lastC stepMS none st3 with
                | mk tr1? st4 =>
                  cases tr1? with
                  | none => simp [h1, exceptPure, exceptMap_ok]
                  | some tr1 =>
                    simp only [h1]
                    cases h2 : getOrbitTrack sample fuel p.arr c stepMS none st4 with
                    | mk tr2? st5 =>
                      cases tr2? with
                      | none => simp [h2, exceptPure, exceptMap_ok]
                      | some tr2 =>
                        simp only [h2]
                        cases h3 : getOrbitTrack sample fuel p.arr nextC stepMS none st5 with
                        | mk tr3? st6 =>
                          cases tr3? with
                          | none => simp [h3, exceptPure, exceptMap_ok]
                          | some tr3 => simp [h3, exceptPure, exceptMap_ok]

/-- Witness for claim C7 on a fresh cache with the ISS TLE (any sampler; the
hypothesis is only that no ground-track entries are cached). -/
theorem getGroundTrackLatLng_structure_witness :
    Prod.fst <$> getGroundTrackLatLng sampleConst50 0 (.arr issArr) (some 60000)
        (some 5000000) 0 emptyCache
      = claimC7GroundTrack sampleConst50 0 (.arr issArr) (some 60000)
        (some 5000000) 0 emptyCache :=
  getGroundTrackLatLng_structure sampleConst50 0 (.arr issArr) (some 60000)
    (some 5000000) 0 emptyCache rfl
